import Mathlib

/-
Verification of the step-execution engine of build.py: a shallow embedding
of the BuildStep class hierarchy, the concrete step variants
(CommandLineBuildStep, GenericBuildStep, CopyFilesBuildStep,
DeleteFilesBuildStep, RenameFileBuildStep, ZipFilesBuildStep matching phase)
and the __main__ runner loop, together with models of the parts of the
Python standard library the script relies on (os.path.relpath, os.walk,
os.makedirs, os.remove, shutil.rmtree, shutil.move, re.search with
re.IGNORECASE, and attribute lookup on instances).
-/

namespace Build

/-- Exceptions that the modelled code can raise.  genericError stands for an
arbitrary exception escaping a caller-supplied callback of a
GenericBuildStep. -/
inductive PyExc where
  | valueError
  | fileNotFoundError
  | fileExistsError
  | notADirectoryError
  | isADirectoryError
  | reError
  | runtimeError
  | attributeError
  | genericError
deriving DecidableEq, Repr

/-- Values the result attribute of a BuildStep can hold: it is initialised to
False by BuildStep.__init__ (line 30) and CommandLineBuildStep.execute stores
the integer returned by os.system into it (line 52). -/
inductive PyVal where
  | bool (b : Bool)
  | int (n : Int)
deriving DecidableEq, Repr

/-- Model of the Python comparison result of, build.py line 296, the check
that a step result is nonzero: False compares equal to 0 and True compares
equal to 1, so for a bool the comparison is the bool itself; for an int it is
the test against 0. -/
def pyNeZero : PyVal → Bool
  | .bool b => b
  | .int n => n != 0

/-- Characters that are metacharacters of the Python regular-expression
language.  The braces are written numerically. -/
def isReMeta (c : Char) : Bool :=
  c == '*' || c == '+' || c == '?' || c == '.' || c == '(' || c == ')' ||
  c == '[' || c == ']' || c == '|' || c == '^' || c == '$' || c == '\\' ||
  c == Char.ofNat 123 || c == Char.ofNat 125

/-- A pattern whose first character is a quantifier fails to compile in the
Python re module with the error message nothing to repeat; this is the rule
that makes the DeleteFilesBuildStep default pattern, the single star, an
invalid regular expression. -/
def startsWithQuantifier (p : String) : Bool :=
  match p.data with
  | [] => false
  | c :: _ => c == '*' || c == '+' || c == '?'

/-- List-level substring test used to model the Python membership operator
on strings: the needle occurs as a contiguous run inside the haystack. -/
def charsContain (needle : List Char) : List Char → Bool
  | [] => needle.isEmpty
  | c :: cs => needle.isPrefixOf (c :: cs) || charsContain needle cs

/-- Model of the Python expression testing whether the string needle occurs
inside the string hay, as in the guard of DeleteFilesBuildStep.execute
(build.py line 102). -/
def pyIn (needle hay : String) : Bool :=
  charsContain needle.data hay.data

/-- Characterwise lowercasing of a string, the effect the re.IGNORECASE flag
has on the comparison of the pattern and the subject. -/
def lowerStr (s : String) : String :=
  String.mk (s.data.map Char.toLower)

/-- Model of re.search with the re.IGNORECASE flag (build.py lines 78, 110,
113, 145, 199) for the pattern shapes this repository constructs: a pattern
beginning with a quantifier fails to compile (this covers the
DeleteFilesBuildStep default pattern, a single star); the default pattern of
the other variants, dot star, matches every string; a pattern made only of
literal characters matches a string exactly when it occurs inside it,
compared after lowercasing both sides (this covers patterns produced by
re.escape on names without special characters and the readme examples of the
specification).  Pattern strings outside this fragment are not used by any
theorem below. -/
def reSearchIC (p s : String) : Except PyExc Bool :=
  if startsWithQuantifier p then .error .reError
  else if p = ".*" then .ok true
  else if p.data.all (fun c => !(isReMeta c)) then
    .ok (pyIn (lowerStr p) (lowerStr s))
  else .ok false

/-- Default value of the regex keyword argument of
DeleteFilesBuildStep.__init__ (build.py line 92). -/
def deleteFilesDefaultRegex : String := "*"

/-- Length of the longest common prefix of two component lists, used by the
model of os.path.relpath. -/
def commonLen : List String → List String → Nat
  | a :: as, b :: bs => if a = b then commonLen as bs + 1 else 0
  | _, _ => 0

/-- Model of os.path.relpath on resolved absolute paths represented as lists
of components: drop the common prefix of the path and the start directory and
climb out of the remaining start components with parent references. -/
def pyRelpathComps (p start : List String) : List String :=
  List.replicate (start.length - commonLen start p) ".." ++ p.drop (commonLen start p)

/-- Joining of path components with the separator, as the string returned by
os.path.relpath is the separator join of its components. -/
def joinSlash : List String → String
  | [] => ""
  | [x] => x
  | x :: y :: rest => x ++ "/" ++ joinSlash (y :: rest)

/-- String form of os.path.relpath: an empty component list denotes the
current directory. -/
def pyRelpathStr (p start : List String) : String :=
  if (pyRelpathComps p start).isEmpty then "." else joinSlash (pyRelpathComps p start)

/-- Filesystem entries: a regular file with its contents, or a directory with
the ordered list of its children; the order of the children is the listing
order the operating system reports. -/
inductive FSTree where
  | file (name : String) (content : String)
  | dir (name : String) (children : List FSTree)

/-- Name of a filesystem entry. -/
def FSTree.entryName : FSTree → String
  | .file n _ => n
  | .dir n _ => n

/-- Names of the regular files among a list of entries, in listing order. -/
def fileNames (cs : List FSTree) : List String :=
  cs.filterMap (fun t => match t with | .file n _ => some n | _ => none)

/-- Names of the directories among a list of entries, in listing order. -/
def dirNames (cs : List FSTree) : List String :=
  cs.filterMap (fun t => match t with | .dir n _ => some n | _ => none)

/-- First child entry carrying the given name. -/
def childNamed (cs : List FSTree) (n : String) : Option FSTree :=
  cs.find? (fun t => t.entryName == n)

/-- Entry found by following a nonempty component path from the root
children list; none when some component is missing or crosses a file. -/
def findEntry (cs : List FSTree) : List String → Option FSTree
  | [] => none
  | [n] => childNamed cs n
  | n :: m :: rest =>
    match childNamed cs n with
    | some (.dir _ cs') => findEntry cs' (m :: rest)
    | _ => none

/-- Children of the directory at the given path; the empty path denotes the
root of the filesystem. -/
def childrenAt (fs : List FSTree) : List String → Option (List FSTree)
  | [] => some fs
  | n :: rest =>
    match findEntry fs (n :: rest) with
    | some (.dir _ cs) => some cs
    | _ => none

/-- Model of os.path.isdir on resolved paths. -/
def isDirAt (fs : List FSTree) (p : List String) : Bool :=
  (childrenAt fs p).isSome

/-- Contents of the regular file at the given path, if any. -/
def fileAt (fs : List FSTree) (p : List String) : Option String :=
  match findEntry fs p with
  | some (.file _ c) => some c
  | _ => none

/-- Model of os.path.exists on resolved paths. -/
def existsAt (fs : List FSTree) (p : List String) : Bool :=
  p.isEmpty || (findEntry fs p).isSome

/-- Applies a transformation to the children list of the directory at the
given path, leaving the filesystem unchanged when the path is missing. -/
def updateAt (fs : List FSTree) : List String → (List FSTree → List FSTree) → List FSTree
  | [], f => f fs
  | n :: rest, f =>
    fs.map (fun t =>
      match t with
      | .dir m cs => if m = n then .dir m (updateAt cs rest f) else .dir m cs
      | x => x)

/-- Replaces the contents of the file child with the given name. -/
def setFileChild (n c : String) (cs : List FSTree) : List FSTree :=
  cs.map (fun t =>
    match t with
    | .file m _ => if m = n then .file m c else t
    | x => x)

/-- Removes the children with the given name. -/
def dropChild (n : String) (cs : List FSTree) : List FSTree :=
  cs.filter (fun t => !(t.entryName == n))

/-- Auxiliary recursion of the os.makedirs model: creates the missing
directories along the path, reusing directories that already exist and
failing when a path component exists as a regular file. -/
def mkdirsGo (cs : List FSTree) : List String → Except PyExc (List FSTree)
  | [] => .ok cs
  | n :: rest =>
    match childNamed cs n with
    | some (.dir _ cs') =>
      match mkdirsGo cs' rest with
      | .error e => .error e
      | .ok cs'' =>
        .ok (cs.map (fun t =>
          match t with
          | .dir k kc => if k = n then .dir k cs'' else .dir k kc
          | x => x))
    | some (.file _ _) => .error .notADirectoryError
    | none =>
      match mkdirsGo [] rest with
      | .error e => .error e
      | .ok sub => .ok (cs ++ [.dir n sub])

/-- Model of os.makedirs with its default arguments (build.py lines 70, 87,
139, 164, 190): raises FileExistsError when the full path already exists and
otherwise creates every missing directory along it. -/
def makedirs (fs : List FSTree) (p : List String) : Except PyExc (List FSTree) :=
  if existsAt fs p then .error .fileExistsError else mkdirsGo fs p

/-- Model of opening a path for writing and storing the given contents, as
performed by shutil.copy2 at its destination and by the move model below:
fails when the parent directory is missing or the path is a directory, and
otherwise creates or overwrites the regular file. -/
def writeFile (fs : List FSTree) (p : List String) (c : String) : Except PyExc (List FSTree) :=
  match p.getLast? with
  | none => .error .isADirectoryError
  | some n =>
    match childrenAt fs p.dropLast with
    | none => .error .fileNotFoundError
    | some cs =>
      match childNamed cs n with
      | some (.dir _ _) => .error .isADirectoryError
      | some (.file _ _) => .ok (updateAt fs p.dropLast (setFileChild n c))
      | none => .ok (updateAt fs p.dropLast (fun l => l ++ [.file n c]))

/-- Model of os.remove (build.py line 120): fails when the path is missing or
names a directory, and otherwise removes the regular file. -/
def removeFileAt (fs : List FSTree) (p : List String) : Except PyExc (List FSTree) :=
  match findEntry fs p with
  | some (.file n _) => .ok (updateAt fs p.dropLast (dropChild n))
  | some (.dir _ _) => .error .isADirectoryError
  | none => .error .fileNotFoundError

/-- Model of shutil.rmtree (build.py line 124): fails when the path is
missing or names a regular file, and otherwise removes the whole directory
subtree. -/
def rmtreeAt (fs : List FSTree) (p : List String) : Except PyExc (List FSTree) :=
  match findEntry fs p with
  | some (.dir n _) => .ok (updateAt fs p.dropLast (dropChild n))
  | some (.file _ _) => .error .notADirectoryError
  | none => .error .fileNotFoundError

/-- Model of shutil.move (build.py line 150): when the destination names an
existing directory the source is moved into it under its own base name;
otherwise the destination path itself is the target.  The move is modelled as
writing the source contents at the target and then removing the source
file; it fails when the source is not a regular file. -/
def shutilMove (fs : List FSTree) (src dst : List String) : Except PyExc (List FSTree) :=
  match fileAt fs src with
  | none => .error .fileNotFoundError
  | some c =>
    let target :=
      match isDirAt fs dst, src.getLast? with
      | true, some n => dst ++ [n]
      | _, _ => dst
    match writeFile fs target c with
    | .error e => .error e
    | .ok fs1 => removeFileAt fs1 src

/-- Shape of the triples yielded by os.walk: the current directory path, the
names of its subdirectories and the names of its regular files. -/
def WalkEntry : Type := List String × List String × List String

mutual

/-- Walk of a single entry in the os.walk top-down order: a file contributes
nothing and a directory yields its own triple followed by the walks of its
subdirectories in listing order. -/
def walkTree (t : FSTree) (cur : List String) : List WalkEntry :=
  match t with
  | .file _ _ => []
  | .dir n cs => (cur ++ [n], dirNames cs, fileNames cs) :: walkList cs (cur ++ [n])

/-- Walks of a list of entries in order, files contributing nothing. -/
def walkList (ts : List FSTree) (cur : List String) : List WalkEntry :=
  match ts with
  | [] => []
  | t :: rest => walkTree t cur ++ walkList rest cur

end

/-- Model of os.walk on a resolved top directory (build.py lines 76, 108,
143, 196): walking a missing path or a regular file yields nothing, and
walking a directory yields its triple followed by the recursive walks of its
subdirectories in listing order. -/
def walkFS (fs : List FSTree) (top : List String) : List WalkEntry :=
  match childrenAt fs top with
  | none => []
  | some cs => (top, dirNames cs, fileNames cs) :: walkList cs top

/-- Inner filename loop shared by the variants (build.py lines 77 to 79, 109
to 111, 144 to 146): tests each name against the pattern with re.search and
re.IGNORECASE and keeps the matching ones in order; a pattern that fails to
compile raises at the first tested name. -/
def matchNames (regex : String) : List String → Except PyExc (List String)
  | [] => .ok []
  | n :: ns =>
    match reSearchIC regex n with
    | .error e => .error e
    | .ok b =>
      match matchNames regex ns with
      | .error e => .error e
      | .ok rest => .ok (if b then n :: rest else rest)

/-- File-match collection of CopyFilesBuildStep and RenameFileBuildStep: per
walked directory, the matching file names joined onto the directory path,
accumulated in walk order. -/
def collectFileMatches (regex : String) : List WalkEntry → Except PyExc (List (List String))
  | [] => .ok []
  | (root, _, files) :: es =>
    match matchNames regex files with
    | .error e => .error e
    | .ok ms =>
      match collectFileMatches regex es with
      | .error e => .error e
      | .ok rest => .ok (ms.map (fun n => root ++ [n]) ++ rest)

/-- Match collection of DeleteFilesBuildStep (build.py lines 106 to 116): per
walked directory, the matching file names and the matching directory names,
each joined onto the directory path, accumulated in walk order into two
lists. -/
def collectDeleteMatches (regex : String) : List WalkEntry → Except PyExc (List (List String) × List (List String))
  | [] => .ok ([], [])
  | (root, dirs, files) :: es =>
    match matchNames regex files with
    | .error e => .error e
    | .ok fms =>
      match matchNames regex dirs with
      | .error e => .error e
      | .ok dms =>
        match collectDeleteMatches regex es with
        | .error e => .error e
        | .ok (frest, drest) =>
          .ok (fms.map (fun n => root ++ [n]) ++ frest,
               dms.map (fun n => root ++ [n]) ++ drest)

/-- Inner filename loop of ZipFilesBuildStep (build.py lines 197 to 201):
rebases each file onto the root argument and tests the resulting relative
path string. -/
def matchNamesZip (regex : String) (rootArg root : List String) : List String → Except PyExc (List String)
  | [] => .ok []
  | n :: ns =>
    let s := joinSlash (pyRelpathComps (root ++ [n]) rootArg)
    match reSearchIC regex s with
    | .error e => .error e
    | .ok b =>
      match matchNamesZip regex rootArg root ns with
      | .error e => .error e
      | .ok rest => .ok (if b then s :: rest else rest)

/-- Match collection of ZipFilesBuildStep (build.py lines 196 to 203): each
walked file name is first replaced by the path of the file relative to the
root argument of the step, and that relative path string, not the base name,
is what the pattern is tested against and what is collected. -/
def collectZipMatches (regex : String) (rootArg : List String) : List WalkEntry → Except PyExc (List String)
  | [] => .ok []
  | (root, _, files) :: es =>
    match matchNamesZip regex rootArg root files with
    | .error e => .error e
    | .ok ms =>
      match collectZipMatches regex rootArg es with
      | .error e => .error e
      | .ok rest => .ok (ms ++ rest)

/-- Copy loop of CopyFilesBuildStep.execute (build.py lines 83 to 88): for
each matched file, the destination file name is the destination directory
joined with the path of the file relative to the source directory; a missing
parent directory of the destination file is created with os.makedirs, and the
file contents are copied with shutil.copy2.  The first error stops the loop
with the filesystem as mutated so far. -/
def copyLoop (src dest : List String) : List FSTree → List (List String) → List FSTree × Option PyExc
  | fs, [] => (fs, none)
  | fs, f :: rest =>
    let destF := dest ++ pyRelpathComps f src
    match (if isDirAt fs destF.dropLast then .ok fs else makedirs fs destF.dropLast : Except PyExc (List FSTree)) with
    | .error e => (fs, some e)
    | .ok fs1 =>
      match fileAt fs1 f with
      | none => (fs1, some .fileNotFoundError)
      | some c =>
        match writeFile fs1 destF c with
        | .error e => (fs1, some e)
        | .ok fs2 => copyLoop src dest fs2 rest

/-- Collection and copy phases of CopyFilesBuildStep.execute (build.py lines
74 to 88): the source directory is walked, the walk stopping after the first
directory when the step is not recursive, file base names are matched against
the pattern, and the matches are copied. -/
def copyPhase (fs : List FSTree) (src dest : List String) (recursive : Bool) (regex : String) : List FSTree × Option PyExc :=
  let entries := walkFS fs src
  let entries := if recursive then entries else entries.take 1
  match collectFileMatches regex entries with
  | .error e => (fs, some e)
  | .ok ms => copyLoop src dest fs ms

/-- Model of CopyFilesBuildStep.execute (build.py lines 66 to 88): when the
destination directory is missing it is created when the create flag is set
and otherwise a FileNotFoundError is raised; then files are collected and
copied. -/
def copyFilesExecute (fs : List FSTree) (src dest : List String) (createDest recursive : Bool) (regex : String) : List FSTree × Option PyExc :=
  if isDirAt fs dest then copyPhase fs src dest recursive regex
  else if createDest then
    match makedirs fs dest with
    | .error e => (fs, some e)
    | .ok fs1 => copyPhase fs1 src dest recursive regex
  else (fs, some .fileNotFoundError)

/-- File-deletion loop of DeleteFilesBuildStep.execute (build.py lines 118 to
120), stopping at the first error with the filesystem as mutated so far. -/
def removeAllFiles : List FSTree → List (List String) → List FSTree × Option PyExc
  | fs, [] => (fs, none)
  | fs, p :: ps =>
    match removeFileAt fs p with
    | .error e => (fs, some e)
    | .ok fs' => removeAllFiles fs' ps

/-- Directory-deletion loop of DeleteFilesBuildStep.execute (build.py lines
122 to 124), stopping at the first error. -/
def rmtreeAll : List FSTree → List (List String) → List FSTree × Option PyExc
  | fs, [] => (fs, none)
  | fs, p :: ps =>
    match rmtreeAt fs p with
    | .error e => (fs, some e)
    | .ok fs' => rmtreeAll fs' ps

/-- Model of DeleteFilesBuildStep.execute (build.py lines 98 to 124): the
target directory is rebased against the current working directory and a
ValueError is raised before anything else when the literal parent reference
occurs in the resulting string; then the directory is walked, base names of
files and of subdirectories are matched against the pattern, the matched
files are removed and the matched directories are removed recursively. -/
def deleteFilesExecute (cwd : List String) (fs : List FSTree) (directory : List String) (regex : String) (recursive : Bool) : List FSTree × Option PyExc :=
  if pyIn ".." (pyRelpathStr directory cwd) then (fs, some .valueError)
  else
    let entries := walkFS fs directory
    let entries := if recursive then entries else entries.take 1
    match collectDeleteMatches regex entries with
    | .error e => (fs, some e)
    | .ok (fms, dms) =>
      match removeAllFiles fs fms with
      | (fs1, some e) => (fs1, some e)
      | (fs1, none) => rmtreeAll fs1 dms

/-- Final move of RenameFileBuildStep.execute (build.py line 150) together
with its outcome. -/
def renameMoveResult (fs : List FSTree) (src dest : List String) : List FSTree × Option PyExc :=
  match shutilMove fs src dest with
  | .error e => (fs, some e)
  | .ok fs2 => (fs2, none)

/-- Search and move phases of RenameFileBuildStep.execute (build.py lines 142
to 150): the source directory is walked fully, every matching file overwrites
the single source variable so the last match found during the traversal
survives, a FileNotFoundError is raised when no file matched, and otherwise
the surviving match is moved to the destination. -/
def renamePhase (fs : List FSTree) (src dest : List String) (regex : String) : List FSTree × Option PyExc :=
  match collectFileMatches regex (walkFS fs src) with
  | .error e => (fs, some e)
  | .ok ms =>
    match ms.getLast? with
    | none => (fs, some .fileNotFoundError)
    | some m => renameMoveResult fs m dest

/-- Model of RenameFileBuildStep.execute (build.py lines 135 to 150): when
the parent directory of the destination file is missing, the step either
raises a FileNotFoundError or, when the create flag is set, calls os.makedirs
on the parent of that parent directory, exactly as the source does at line
139; then the search and move phases run. -/
def renameFileExecute (fs : List FSTree) (src dest : List String) (createDest : Bool) (regex : String) : List FSTree × Option PyExc :=
  if isDirAt fs dest.dropLast then renamePhase fs src dest regex
  else if createDest then
    match makedirs fs dest.dropLast.dropLast with
    | .error e => (fs, some e)
    | .ok fs1 => renamePhase fs1 src dest regex
  else (fs, some .fileNotFoundError)

/-- The step variants the runner claims range over, each carrying the
constructor arguments of the corresponding class.  The command-line variant
carries the exit status that os.system will report for its command; the
generic variant carries a model of its caller-supplied callback: whether it
raises, an optional integer it assigns to the result attribute of the step,
and its effect on the filesystem. -/
inductive Step where
  | commandLine (name : String) (stopOnFail : Bool) (exitCode : Int)
  | generic (name : String) (stopOnFail : Bool) (raises : Bool) (setsResult : Option Int) (eff : List FSTree → List FSTree)
  | copyFiles (name : String) (stopOnFail : Bool) (src dest : List String) (createDest recursive : Bool) (regex : String)
  | deleteFiles (name : String) (stopOnFail : Bool) (directory : List String) (regex : String) (recursive : Bool)
  | renameFile (name : String) (stopOnFail : Bool) (src dest : List String) (createDest : Bool) (regex : String)

/-- Name attribute of a step. -/
def Step.name : Step → String
  | .commandLine n .. => n
  | .generic n .. => n
  | .copyFiles n .. => n
  | .deleteFiles n .. => n
  | .renameFile n .. => n

/-- Value stored by __init__ in the underscore-prefixed stop attribute
(build.py line 32). -/
def Step.stopFlag : Step → Bool
  | .commandLine _ b .. => b
  | .generic _ b .. => b
  | .copyFiles _ b .. => b
  | .deleteFiles _ b .. => b
  | .renameFile _ b .. => b

/-- Observable outcome of one call to execute: the filesystem afterwards, the
value of the result attribute of the step afterwards, the exception escaping
the call if any, and how many assignments to the result attribute the call
performed. -/
structure ExecResult where
  fs : List FSTree
  result : PyVal
  exc : Option PyExc
  resultWrites : Nat

/-- Model of one call to execute of each variant.  CommandLineBuildStep
(build.py lines 50 to 55) stores the exit status into the result attribute
and then raises a RuntimeError when the status is nonzero and the stop flag
is set.  GenericBuildStep (line 43) runs the caller-supplied callback; a
raising callback is modelled as performing no observable effect.  The
filesystem variants run their execute models and never assign the result
attribute, which therefore keeps the value False given to it by __init__
(build.py line 30). -/
def execStep (cwd : List String) (s : Step) (fs : List FSTree) : ExecResult :=
  match s with
  | .commandLine _ sof code =>
    if code ≠ 0 ∧ sof = true then ⟨fs, .int code, some .runtimeError, 1⟩
    else ⟨fs, .int code, none, 1⟩
  | .generic _ _ raises setsResult eff =>
    if raises then ⟨fs, .bool false, some .genericError, 0⟩
    else
      match setsResult with
      | some k => ⟨eff fs, .int k, none, 1⟩
      | none => ⟨eff fs, .bool false, none, 0⟩
  | .copyFiles _ _ src dest cd rec regex =>
    let r := copyFilesExecute fs src dest cd rec regex
    ⟨r.1, .bool false, r.2, 0⟩
  | .deleteFiles _ _ directory regex rec =>
    let r := deleteFilesExecute cwd fs directory regex rec
    ⟨r.1, .bool false, r.2, 0⟩
  | .renameFile _ _ src dest cd regex =>
    let r := renameFileExecute fs src dest cd regex
    ⟨r.1, .bool false, r.2, 0⟩

/-- Names of the instance attributes assigned by the constructors: __init__
of the base class assigns name, result, the logger and the underscore-prefixed
stop flag (build.py lines 29 to 32) and each subclass constructor adds its
own configuration attributes.  No constructor, and no execute, ever assigns
an attribute called stop underscore on underscore fail without the leading
underscore. -/
def stepAttrNames (s : Step) : List String :=
  ["name", "result", "_logger", "_stop_on_fail"] ++
  match s with
  | .commandLine .. => ["command"]
  | .generic .. => ["execute"]
  | .copyFiles .. => ["source_dir", "dest_dir", "create_dest_dir", "recursive", "regex"]
  | .deleteFiles .. => ["directory", "regex", "recursive"]
  | .renameFile .. => ["source_dir", "dest_filename", "create_dest_dir", "regex"]

/-- Model of the attribute lookup the runner performs at build.py line 299:
reading the attribute named stop_on_fail from the step instance succeeds with
the stored flag when the instance has an attribute of that name and raises an
AttributeError otherwise. -/
def getattrStopOnFail (s : Step) : Except PyExc Bool :=
  if (stepAttrNames s).contains "stop_on_fail" then .ok s.stopFlag else .error .attributeError

/-- Observable outcome of the runner in __main__ (build.py lines 291 to 312):
the names of the steps whose execute was invoked in order, the final
filesystem, the error counter, the process exit code, the final status line
when the summary at line 309 is reached, and the name of the step active when
an exception reached the handler at line 304, if any. -/
structure RunResult where
  executed : List String
  fs : List FSTree
  numErrors : Nat
  exitCode : Nat
  statusLine : Option String
  abortedStep : Option String

/-- Model of the runner loop of __main__ (build.py lines 291 to 312): each
step is executed in order; an exception escaping execute reaches the handler,
which logs the name of the active step and exits with code 1; otherwise, when
the result attribute of the step compares nonzero the error counter is
incremented and the attribute named stop_on_fail is read from the step, a
read whose own exception also reaches the handler; were that read to succeed,
a true flag would mark the build failed and break, and a false flag would
continue with the next step.  Falling off the end of the list reports the
status line and exits 0 when the failed flag was never set. -/
def runLoop (cwd : List String) : List Step → List FSTree → Nat → List String → RunResult
  | [], fs, n, ex => ⟨ex, fs, n, 0, some "succeeded", none⟩
  | s :: rest, fs, n, ex =>
    let er := execStep cwd s fs
    let ex' := ex ++ [s.name]
    match er.exc with
    | some _ => ⟨ex', er.fs, n, 1, none, some s.name⟩
    | none =>
      if pyNeZero er.result then
        match getattrStopOnFail s with
        | .error _ => ⟨ex', er.fs, n + 1, 1, none, some s.name⟩
        | .ok true => ⟨ex', er.fs, n + 1, 1, some "failed", none⟩
        | .ok false => runLoop cwd rest er.fs (n + 1) ex'
      else runLoop cwd rest er.fs n ex'

/-- Entry point of the runner model: the loop starts with zero errors and an
empty execution record. -/
def runSteps (cwd : List String) (steps : List Step) (fs : List FSTree) : RunResult :=
  runLoop cwd steps fs 0 []

/-- A list of steps runs cleanly from a filesystem when every execute returns
without an exception and with a result comparing equal to zero. -/
def runOk (cwd : List String) : List Step → List FSTree → Bool
  | [], _ => true
  | s :: rest, fs =>
    let er := execStep cwd s fs
    er.exc.isNone && !pyNeZero er.result && runOk cwd rest er.fs

/-- Filesystem after executing a list of steps in order. -/
def fsAfterSteps (cwd : List String) : List Step → List FSTree → List FSTree
  | [], fs => fs
  | s :: rest, fs => fsAfterSteps cwd rest (execStep cwd s fs).fs

/-- Pairs of walked directory and file base name, in walk order, used to
phrase selection rules in the words of the specification. -/
def walkFilePairs (es : List WalkEntry) : List (List String × String) :=
  es.flatMap (fun e =>
    match e with
    | (r, _, files) => files.map (fun n => (r, n)))

/-- Pairs of walked directory and subdirectory base name, in walk order. -/
def walkDirPairs (es : List WalkEntry) : List (List String × String) :=
  es.flatMap (fun e =>
    match e with
    | (r, dirs, _) => dirs.map (fun n => (r, n)))

/-- Selection rule in the words of the specification: the pattern is matched
case-insensitively against the base name of each encountered entry, never
against its path, and the matching entries are kept in traversal order. -/
def specBasenameSelection (regex : String) : List (List String × String) → Except PyExc (List (List String))
  | [] => .ok []
  | (r, n) :: ps =>
    match reSearchIC regex n with
    | .error e => .error e
    | .ok b =>
      match specBasenameSelection regex ps with
      | .error e => .error e
      | .ok rest => .ok (if b then (r ++ [n]) :: rest else rest)

/-- Contrasting selection rule: the pattern is matched case-insensitively
against the path of each encountered file relative to a fixed root, the rule
the zip variant actually implements. -/
def specRelpathSelection (regex : String) (rootArg : List String) : List (List String × String) → Except PyExc (List String)
  | [] => .ok []
  | (r, n) :: ps =>
    let s := joinSlash (pyRelpathComps (r ++ [n]) rootArg)
    match reSearchIC regex s with
    | .error e => .error e
    | .ok b =>
      match specRelpathSelection regex rootArg ps with
      | .error e => .error e
      | .ok rest => .ok (if b then s :: rest else rest)

/-- Concrete filesystem with one source file and an empty destination
directory. -/
def exampleFsCopy : List FSTree :=
  [FSTree.dir "s" [FSTree.file "a" "h"], FSTree.dir "d" []]

/-- Concrete filesystem with two files matching a catch-all pattern under the
source directory and an empty output directory. -/
def exampleFsRename : List FSTree :=
  [FSTree.dir "s" [FSTree.file "a" "x", FSTree.dir "t" [FSTree.file "b" "y"]],
   FSTree.dir "out" []]

/-- Concrete filesystem whose only file sits inside a directory called docs,
so that its base name and its relative path disagree about the pattern. -/
def exampleFsZip : List FSTree :=
  [FSTree.dir "p" [FSTree.dir "docs" [FSTree.file "a.txt" ""]]]

/-- Concrete filesystem with a nonempty directory b inside the working
root p. -/
def exampleFsDelete : List FSTree :=
  [FSTree.dir "p" [FSTree.dir "b" [FSTree.file "x" ""]]]

theorem getattr_stop_on_fail_fails (s : Step) :
    getattrStopOnFail s = .error .attributeError := by
  cases s <;> rfl

/-- Claim C1: the claim says that a failure of a step constructed with the
stop flag false never stops the run and every subsequent step still executes.
The code violates this: the constructor stores the flag under the name with a
leading underscore, the runner reads the attribute without the underscore,
and that read raises an AttributeError the moment any step finishes with a
nonzero result, aborting the whole run.  At the concrete input below, a
non-halting command step exiting with status 7 followed by a healthy generic
step, the run executes only the first step and exits with code 1. -/
theorem c1_nonhalting_failure_aborts_run :
    (runSteps [] [Step.commandLine "s1" false 7,
                  Step.generic "s2" true false none id] []).executed = ["s1"]
    ∧ (runSteps [] [Step.commandLine "s1" false 7,
                    Step.generic "s2" true false none id] []).exitCode = 1
    ∧ (runSteps [] [Step.commandLine "s1" false 7,
                    Step.generic "s2" true false none id] []).abortedStep = some "s1" := by
  exact ⟨rfl, rfl, rfl⟩

/-- Claim C8: on the empty step list the runner completes immediately with
zero recorded failures, reports the succeeded status line and exits with
code 0. -/
theorem c8_empty_run_succeeds (cwd : List String) (fs : List FSTree) :
    runSteps cwd [] fs = ⟨[], fs, 0, 0, some "succeeded", none⟩ := rfl

/-- Claim C9: a command-line step raises a RuntimeError exactly when the exit
status of its command is nonzero and its stop flag is set; in every case the
exit status is stored into the result attribute by a single write, so a
nonzero status with the stop flag unset is only recorded and execute returns
without raising. -/
theorem c9_command_line_raises_iff (cwd : List String) (fs : List FSTree)
    (nm : String) (sof : Bool) (code : Int) :
    ((execStep cwd (.commandLine nm sof code) fs).exc ≠ none ↔ (code ≠ 0 ∧ sof = true))
    ∧ (code ≠ 0 ∧ sof = true →
        (execStep cwd (.commandLine nm sof code) fs).exc = some .runtimeError)
    ∧ (execStep cwd (.commandLine nm sof code) fs).result = .int code
    ∧ (execStep cwd (.commandLine nm sof code) fs).resultWrites = 1 := by
  by_cases h : code ≠ 0 ∧ sof = true
  · simp [execStep, h]
  · simp [execStep, h]

/-- Witness for claim C9: with the stop flag set a command exiting 5 raises,
and with the stop flag unset the same exit status is stored in the result
attribute. -/
theorem c9_witness :
    (execStep [] (.commandLine "cmd" true 5) []).exc = some .runtimeError
    ∧ (execStep [] (.commandLine "cmd" false 5) []).result = .int 5 :=
  ⟨(c9_command_line_raises_iff [] [] "cmd" true 5).2.1 (by decide),
   (c9_command_line_raises_iff [] [] "cmd" false 5).2.2.1⟩

theorem runLoop_append_ok (cwd : List String) (rest : List Step) :
    ∀ (pre : List Step) (fs : List FSTree) (n : Nat) (ex : List String),
      runOk cwd pre fs = true →
      runLoop cwd (pre ++ rest) fs n ex
        = runLoop cwd rest (fsAfterSteps cwd pre fs) n (ex ++ pre.map Step.name) := by
  intro pre
  induction pre with
  | nil =>
    intro fs n ex _
    simp [fsAfterSteps]
  | cons s pre ih =>
    intro fs n ex h
    simp only [runOk, Bool.and_eq_true] at h
    obtain ⟨⟨hexc, hres⟩, hrest⟩ := h
    rw [Option.isNone_iff_eq_none] at hexc
    rw [Bool.not_eq_eq_eq_not, Bool.not_true] at hres
    simp only [List.cons_append, runLoop, hexc, hres, Bool.false_eq_true, if_false,
      List.append_eq]
    rw [ih _ _ _ hrest]
    simp [fsAfterSteps, List.append_assoc]

/-- Claim C2: whenever a run reaches a step whose execute finishes with a
nonzero result and whose stop flag is set, no step after it in the list is
ever executed and the process exits with code 1; the status line never
reports success.  In the code the halt happens through the failed lookup of
the stop attribute, whose exception reaches the handler, so the stop flag
hypothesis is not even needed for the abort to occur. -/
theorem c2_halting_failure_stops_run (cwd : List String) (fs : List FSTree)
    (pre post : List Step) (s : Step)
    (hpre : runOk cwd pre fs = true)
    (hexc : (execStep cwd s (fsAfterSteps cwd pre fs)).exc = none)
    (hres : pyNeZero (execStep cwd s (fsAfterSteps cwd pre fs)).result = true)
    (_hsof : s.stopFlag = true) :
    (runSteps cwd (pre ++ s :: post) fs).executed = pre.map Step.name ++ [s.name]
    ∧ (runSteps cwd (pre ++ s :: post) fs).exitCode = 1
    ∧ (runSteps cwd (pre ++ s :: post) fs).statusLine ≠ some "succeeded" := by
  unfold runSteps
  rw [runLoop_append_ok cwd (s :: post) pre fs 0 [] hpre]
  simp [runLoop, hexc, hres, getattr_stop_on_fail_fails]

/-- Witness for claim C2: a generic step whose callback stores 2 into the
result attribute and returns, with the stop flag set, halts the run before a
second step. -/
theorem c2_witness :
    (runSteps [] [Step.generic "g1" true false (some 2) id,
                  Step.generic "g2" true false none id] []).executed = ["g1"]
    ∧ (runSteps [] [Step.generic "g1" true false (some 2) id,
                    Step.generic "g2" true false none id] []).exitCode = 1
    ∧ (runSteps [] [Step.generic "g1" true false (some 2) id,
                    Step.generic "g2" true false none id] []).statusLine ≠ some "succeeded" :=
  c2_halting_failure_stops_run [] [] [] [Step.generic "g2" true false none id]
    (Step.generic "g1" true false (some 2) id) rfl rfl rfl rfl

/-- Claim C3: whenever a run reaches a step whose execute raises, the runner
stops immediately: no later step executes, the name of the failing step is
the one recorded by the exception handler, and the process exits with a
nonzero code without reaching the status summary. -/
theorem c3_exception_aborts_run (cwd : List String) (fs : List FSTree)
    (pre post : List Step) (s : Step) (e : PyExc)
    (hpre : runOk cwd pre fs = true)
    (hexc : (execStep cwd s (fsAfterSteps cwd pre fs)).exc = some e) :
    (runSteps cwd (pre ++ s :: post) fs).executed = pre.map Step.name ++ [s.name]
    ∧ (runSteps cwd (pre ++ s :: post) fs).abortedStep = some s.name
    ∧ (runSteps cwd (pre ++ s :: post) fs).exitCode = 1 := by
  unfold runSteps
  rw [runLoop_append_ok cwd (s :: post) pre fs 0 [] hpre]
  simp [runLoop, hexc]

/-- Witness for claim C3: a generic step whose callback raises aborts the run
before a second step, recording its name. -/
theorem c3_witness :
    (runSteps [] [Step.generic "boom" true true none id,
                  Step.generic "after" true false none id] []).executed = ["boom"]
    ∧ (runSteps [] [Step.generic "boom" true true none id,
                    Step.generic "after" true false none id] []).abortedStep = some "boom"
    ∧ (runSteps [] [Step.generic "boom" true true none id,
                    Step.generic "after" true false none id] []).exitCode = 1 :=
  c3_exception_aborts_run [] [] [] [Step.generic "after" true false none id]
    (Step.generic "boom" true true none id) PyExc.genericError rfl rfl

theorem commonLen_lt_of_not_isPrefixOf :
    ∀ (a b : List String), a.isPrefixOf b = false → commonLen a b < a.length := by
  intro a
  induction a with
  | nil => intro b h; simp [List.isPrefixOf] at h
  | cons x xs ih =>
    intro b h
    cases b with
    | nil => simp [commonLen]
    | cons y ys =>
      by_cases hxy : x = y
      · subst hxy
        simp only [List.isPrefixOf, beq_self_eq_true, Bool.true_and] at h
        have := ih ys h
        have hc : commonLen (x :: xs) (x :: ys) = commonLen xs ys + 1 := by
          simp [commonLen]
        rw [hc, List.length_cons]
        omega
      · have hc : commonLen (x :: xs) (y :: ys) = 0 := by
          simp [commonLen, hxy]
        rw [hc, List.length_cons]
        omega

theorem pyIn_dotdot_of_head_dotdot :
    ∀ (t : List String), pyIn ".." (joinSlash (".." :: t)) = true := by
  intro t
  cases t with
  | nil => rfl
  | cons y ys =>
    show pyIn ".." (".." ++ "/" ++ joinSlash (y :: ys)) = true
    simp only [pyIn, String.data_append]
    show charsContain ['.', '.'] ('.' :: '.' :: ("/".data ++ (joinSlash (y :: ys)).data)) = true
    simp [charsContain, List.isPrefixOf]

/-- Claim C5: a delete step whose target directory resolves outside the
current working root always raises a ValueError, whatever the pattern and the
recursion flag, and the filesystem is returned unchanged: the guard fires
before any traversal or deletion. -/
theorem c5_delete_escape_guard (cwd directory : List String)
    (regex : String) (recursive : Bool) (fs : List FSTree)
    (h : cwd.isPrefixOf directory = false) :
    deleteFilesExecute cwd fs directory regex recursive = (fs, some PyExc.valueError) := by
  have hlt := commonLen_lt_of_not_isPrefixOf cwd directory h
  obtain ⟨k, hk⟩ : ∃ k, cwd.length - commonLen cwd directory = k + 1 :=
    ⟨cwd.length - commonLen cwd directory - 1, by omega⟩
  have hcomps : pyRelpathComps directory cwd
      = ".." :: (List.replicate k ".." ++ directory.drop (commonLen cwd directory)) := by
    unfold pyRelpathComps
    rw [hk]
    simp [List.replicate]
  have hguard : pyIn ".." (pyRelpathStr directory cwd) = true := by
    unfold pyRelpathStr
    rw [hcomps]
    simpa using pyIn_dotdot_of_head_dotdot _
  unfold deleteFilesExecute
  simp [hguard]

/-- Witness for claim C5: deleting in a sibling of the working root raises
the ValueError and leaves the filesystem unchanged. -/
theorem c5_witness :
    deleteFilesExecute ["a", "b"] exampleFsDelete ["a", "c"] ".*" false
      = (exampleFsDelete, some PyExc.valueError) :=
  c5_delete_escape_guard ["a", "b"] ["a", "c"] ".*" false exampleFsDelete (by decide)

theorem matchNames_star (ns : List String) :
    matchNames "*" ns = if ns.isEmpty then .ok [] else .error .reError := by
  cases ns with
  | nil => rfl
  | cons n ns => rfl

theorem names_nil (cs : List FSTree) (hf : fileNames cs = []) (hd : dirNames cs = []) :
    cs = [] := by
  cases cs with
  | nil => rfl
  | cons t ts =>
    cases t with
    | file n c => simp [fileNames] at hf
    | dir n c => simp [dirNames] at hd

/-- Claim C10: the default pattern of the delete step is the single star,
which the regular-expression compiler rejects: matching it against any name
raises; consequently executing a delete step constructed without an explicit
pattern on an existing directory with at least one file or subdirectory
raises the compilation error before anything is deleted, while on an empty
directory it completes without raising and without deleting anything. -/
theorem c10_delete_default_pattern (cwd directory : List String) (recursive : Bool)
    (fs cs : List FSTree)
    (hguard : pyIn ".." (pyRelpathStr directory cwd) = false)
    (hdir : childrenAt fs directory = some cs) :
    (∀ s, reSearchIC deleteFilesDefaultRegex s = .error PyExc.reError)
    ∧ (cs ≠ [] →
        deleteFilesExecute cwd fs directory deleteFilesDefaultRegex recursive
          = (fs, some PyExc.reError))
    ∧ (cs = [] →
        deleteFilesExecute cwd fs directory deleteFilesDefaultRegex recursive
          = (fs, none)) := by
  have hw : walkFS fs directory = (directory, dirNames cs, fileNames cs) :: walkList cs directory := by
    unfold walkFS
    rw [hdir]
  refine ⟨fun s => rfl, ?_, ?_⟩
  · intro hne
    unfold deleteFilesExecute
    rw [if_neg (by simp [hguard])]
    rw [hw]
    have hcollect : ∀ rest,
        collectDeleteMatches deleteFilesDefaultRegex
          ((directory, dirNames cs, fileNames cs) :: rest) = .error .reError := by
      intro rest
      cases hf : fileNames cs with
      | cons n ns =>
        simp [collectDeleteMatches, deleteFilesDefaultRegex, matchNames_star]
      | nil =>
        cases hd : dirNames cs with
        | nil => exact absurd (names_nil cs hf hd) hne
        | cons d ds =>
          simp [collectDeleteMatches, deleteFilesDefaultRegex, matchNames_star, hf]
    cases recursive <;> simp [hcollect]
  · intro hcs
    subst hcs
    unfold deleteFilesExecute
    rw [if_neg (by simp [hguard])]
    have hw0 : walkFS fs directory = [(directory, [], [])] := by
      rw [hw]; rfl
    rw [hw0]
    cases recursive <;> rfl

/-- Witness for claim C10: the working directory p contains the nonempty
directory b; deleting in b with the default pattern raises the
regular-expression error and leaves the filesystem unchanged. -/
theorem c10_witness :
    deleteFilesExecute ["p"] exampleFsDelete ["p", "b"] deleteFilesDefaultRegex false
      = (exampleFsDelete, some PyExc.reError) :=
  (c10_delete_default_pattern ["p"] ["p", "b"] false exampleFsDelete
    [FSTree.file "x" ""] (by decide) rfl).2.1 (by simp)

/-- Counterexample to claim C4: the claim says the outcome field is written
exactly once and that every variant sets it during execute before returning.
A copy step that completes its work returns with zero writes to the result
attribute, which keeps the False stored by the constructor. -/
theorem c4_counterexample_copy_never_writes_result :
    (execStep [] (Step.copyFiles "copy" true ["s"] ["d"] true false ".*") exampleFsCopy).exc = none
    ∧ (execStep [] (Step.copyFiles "copy" true ["s"] ["d"] true false ".*") exampleFsCopy).resultWrites = 0
    ∧ (execStep [] (Step.copyFiles "copy" true ["s"] ["d"] true false ".*") exampleFsCopy).result = .bool false :=
  ⟨rfl, rfl, rfl⟩

/-- Claim C4 as amended: the result attribute is initialised to False by the
constructor, the command-line variant is the only one whose execute writes
it, doing so exactly once with the exit status of its command, and the copy,
delete and rename variants never write it during execute, so their result
keeps the value False however execute ends. -/
theorem c4_amended_result_writes (cwd : List String) (fs : List FSTree)
    (nm : String) (sof : Bool) (code : Int)
    (src dest directory : List String) (cd rec : Bool) (regex : String) :
    (execStep cwd (.commandLine nm sof code) fs).resultWrites = 1
    ∧ (execStep cwd (.commandLine nm sof code) fs).result = .int code
    ∧ (execStep cwd (.copyFiles nm sof src dest cd rec regex) fs).resultWrites = 0
    ∧ (execStep cwd (.copyFiles nm sof src dest cd rec regex) fs).result = .bool false
    ∧ (execStep cwd (.deleteFiles nm sof directory regex rec) fs).resultWrites = 0
    ∧ (execStep cwd (.deleteFiles nm sof directory regex rec) fs).result = .bool false
    ∧ (execStep cwd (.renameFile nm sof src dest cd regex) fs).resultWrites = 0
    ∧ (execStep cwd (.renameFile nm sof src dest cd regex) fs).result = .bool false := by
  refine ⟨?_, ?_, rfl, rfl, rfl, rfl, rfl, rfl⟩ <;>
    by_cases h : code ≠ 0 ∧ sof = true <;> simp [execStep, h]

/-- Claim C7: with the parent directory of the destination present, a rename
step whose pattern matches no file under the source directory raises a
FileNotFoundError and returns the filesystem unchanged, the destination in
particular; and when the traversal finds several matches, the one moved to
the destination is exactly the last match of the walk. -/
theorem c7_rename_zero_or_last_match (fs : List FSTree) (src dest : List String)
    (cd : Bool) (regex : String) (l : List (List String)) (m : List String)
    (hdest : isDirAt fs dest.dropLast = true) :
    (collectFileMatches regex (walkFS fs src) = .ok [] →
      renameFileExecute fs src dest cd regex = (fs, some PyExc.fileNotFoundError))
    ∧ (collectFileMatches regex (walkFS fs src) = .ok (l ++ [m]) →
      renameFileExecute fs src dest cd regex = renameMoveResult fs m dest) := by
  unfold renameFileExecute
  rw [if_pos hdest]
  constructor
  · intro h
    unfold renamePhase
    rw [h]
    rfl
  · intro h
    unfold renamePhase
    rw [h]
    have hl : (l ++ [m]).getLast? = some m := by
      rw [List.getLast?_append_cons]
      rfl
    simp [hl]

/-- Witness for claim C7: in a source directory holding the file a and the
deeper file t slash b, both matching the catch-all pattern, the moved file is
the later walk find t slash b; and a pattern matching nothing raises the
FileNotFoundError with the filesystem unchanged. -/
theorem c7_witness :
    renameFileExecute exampleFsRename ["s"] ["out", "r.txt"] true ".*"
      = renameMoveResult exampleFsRename ["s", "t", "b"] ["out", "r.txt"]
    ∧ renameFileExecute exampleFsRename ["s"] ["out", "r.txt"] true "zzz"
      = (exampleFsRename, some PyExc.fileNotFoundError) :=
  ⟨(c7_rename_zero_or_last_match exampleFsRename ["s"] ["out", "r.txt"] true ".*"
      [["s", "a"]] ["s", "t", "b"] rfl).2 rfl,
   (c7_rename_zero_or_last_match exampleFsRename ["s"] ["out", "r.txt"] true "zzz"
      [] [] rfl).1 rfl⟩

theorem specBasename_append (regex : String) (ps qs : List (List String × String)) :
    specBasenameSelection regex (ps ++ qs)
      = match specBasenameSelection regex ps, specBasenameSelection regex qs with
        | .ok a, .ok b => .ok (a ++ b)
        | .error e, _ => .error e
        | .ok _, .error e => .error e := by
  induction ps with
  | nil =>
    cases h : specBasenameSelection regex qs <;> simp [specBasenameSelection, h]
  | cons p ps ih =>
    obtain ⟨r, n⟩ := p
    simp only [List.cons_append, specBasenameSelection, List.append_eq]
    cases hr : reSearchIC regex n with
    | error e => rfl
    | ok b =>
      rw [ih]
      cases hp : specBasenameSelection regex ps <;>
        cases hq : specBasenameSelection regex qs <;>
          cases b <;> simp

theorem matchNames_to_spec (regex : String) (r : List String) :
    ∀ files, specBasenameSelection regex (files.map (fun n => (r, n)))
      = match matchNames regex files with
        | .error e => .error e
        | .ok ms => .ok (ms.map (fun n => r ++ [n])) := by
  intro files
  induction files with
  | nil => rfl
  | cons n ns ih =>
    simp only [List.map_cons, specBasenameSelection, matchNames]
    cases hr : reSearchIC regex n with
    | error e => rfl
    | ok b =>
      rw [ih]
      cases hm : matchNames regex ns <;> cases b <;> simp

theorem collectFile_eq_spec (regex : String) :
    ∀ es, collectFileMatches regex es = specBasenameSelection regex (walkFilePairs es) := by
  intro es
  induction es with
  | nil => rfl
  | cons e es ih =>
    obtain ⟨root, d, files⟩ := e
    have hw : walkFilePairs ((root, d, files) :: es)
        = files.map (fun n => (root, n)) ++ walkFilePairs es := by
      simp [walkFilePairs]
    rw [hw, specBasename_append, matchNames_to_spec]
    simp only [collectFileMatches]
    rw [← ih]
    cases hm : matchNames regex files <;> cases hc : collectFileMatches regex es <;> simp

theorem specRelpath_append (regex : String) (rootArg : List String)
    (ps qs : List (List String × String)) :
    specRelpathSelection regex rootArg (ps ++ qs)
      = match specRelpathSelection regex rootArg ps, specRelpathSelection regex rootArg qs with
        | .ok a, .ok b => .ok (a ++ b)
        | .error e, _ => .error e
        | .ok _, .error e => .error e := by
  induction ps with
  | nil =>
    cases h : specRelpathSelection regex rootArg qs <;> simp [specRelpathSelection, h]
  | cons p ps ih =>
    obtain ⟨r, n⟩ := p
    simp only [List.cons_append, specRelpathSelection, List.append_eq]
    cases hr : reSearchIC regex (joinSlash (pyRelpathComps (r ++ [n]) rootArg)) with
    | error e => rfl
    | ok b =>
      rw [ih]
      cases hp : specRelpathSelection regex rootArg ps <;>
        cases hq : specRelpathSelection regex rootArg qs <;>
          cases b <;> simp

theorem matchNamesZip_to_spec (regex : String) (rootArg root : List String) :
    ∀ files, specRelpathSelection regex rootArg (files.map (fun n => (root, n)))
      = matchNamesZip regex rootArg root files := by
  intro files
  induction files with
  | nil => rfl
  | cons n ns ih =>
    simp only [List.map_cons, specRelpathSelection, matchNamesZip]
    rw [ih]

theorem collectZip_eq_spec (regex : String) (rootArg : List String) :
    ∀ es, collectZipMatches regex rootArg es
      = specRelpathSelection regex rootArg (walkFilePairs es) := by
  intro es
  induction es with
  | nil => rfl
  | cons e es ih =>
    obtain ⟨root, d, files⟩ := e
    have hw : walkFilePairs ((root, d, files) :: es)
        = files.map (fun n => (root, n)) ++ walkFilePairs es := by
      simp [walkFilePairs]
    rw [hw, specRelpath_append, matchNamesZip_to_spec]
    simp only [collectZipMatches]
    rw [← ih]
    cases hm : matchNamesZip regex rootArg root files <;>
      cases hc : collectZipMatches regex rootArg es <;> simp

theorem collectDelete_ok_spec (regex : String) :
    ∀ es (fms dms : List (List String)),
      collectDeleteMatches regex es = .ok (fms, dms) →
      specBasenameSelection regex (walkFilePairs es) = .ok fms
      ∧ specBasenameSelection regex (walkDirPairs es) = .ok dms := by
  intro es
  induction es with
  | nil =>
    intro fms dms h
    simp only [collectDeleteMatches, Except.ok.injEq, Prod.mk.injEq] at h
    obtain ⟨h1, h2⟩ := h
    subst h1
    subst h2
    exact ⟨rfl, rfl⟩
  | cons e es ih =>
    obtain ⟨root, dirs, files⟩ := e
    intro fms dms h
    simp only [collectDeleteMatches] at h
    cases hf : matchNames regex files with
    | error e1 => rw [hf] at h; simp at h
    | ok fh =>
      rw [hf] at h
      cases hd : matchNames regex dirs with
      | error e1 => rw [hd] at h; simp at h
      | ok dh =>
        rw [hd] at h
        cases hc : collectDeleteMatches regex es with
        | error e1 => rw [hc] at h; simp at h
        | ok pr =>
          obtain ⟨fr, dr⟩ := pr
          rw [hc] at h
          simp only [Except.ok.injEq, Prod.mk.injEq] at h
          obtain ⟨hfms, hdms⟩ := h
          obtain ⟨ihf, ihd⟩ := ih fr dr hc
          constructor
          · have hw : walkFilePairs ((root, dirs, files) :: es)
                = files.map (fun n => (root, n)) ++ walkFilePairs es := by
              simp [walkFilePairs]
            rw [hw, specBasename_append, matchNames_to_spec, hf, ihf, ← hfms]
          · have hw : walkDirPairs ((root, dirs, files) :: es)
                = dirs.map (fun n => (root, n)) ++ walkDirPairs es := by
              simp [walkDirPairs]
            rw [hw, specBasename_append, matchNames_to_spec, hd, ihd, ← hdms]

/-- Counterexample to claim C6: the claim says that in every step variant the
pattern is matched against base names and never against a relative path.  The
zip variant matches against the path relative to its root argument: with the
pattern docs, the file docs slash a dot txt is selected although its base
name does not match the pattern, and selection by base names would have
selected nothing. -/
theorem c6_counterexample_zip_matches_path :
    collectZipMatches "docs" ["p"] (walkFS exampleFsZip ["p"]) = .ok ["docs/a.txt"]
    ∧ reSearchIC "docs" "a.txt" = .ok false
    ∧ specBasenameSelection "docs" (walkFilePairs (walkFS exampleFsZip ["p"])) = .ok [] :=
  ⟨rfl, rfl, rfl⟩

/-- Claim C6 as amended: the copy, delete and rename variants match the
pattern case-insensitively against base names only, of files and, for the
delete variant, also of directories, exactly as the specification words the
selection rule; the zip variant instead matches case-insensitively against
the path of each file relative to its root argument; and the readme pattern
matches both uppercase and lowercase spellings. -/
theorem c6_amended_basename_except_zip (regex : String) (rootArg : List String)
    (es : List WalkEntry) (fms dms : List (List String)) :
    collectFileMatches regex es = specBasenameSelection regex (walkFilePairs es)
    ∧ (collectDeleteMatches regex es = .ok (fms, dms) →
        specBasenameSelection regex (walkFilePairs es) = .ok fms
        ∧ specBasenameSelection regex (walkDirPairs es) = .ok dms)
    ∧ collectZipMatches regex rootArg es = specRelpathSelection regex rootArg (walkFilePairs es)
    ∧ reSearchIC "readme" "README.TXT" = .ok true
    ∧ reSearchIC "readme" "readme.txt" = .ok true :=
  ⟨collectFile_eq_spec regex es, collectDelete_ok_spec regex es fms dms,
   collectZip_eq_spec regex rootArg es, rfl, rfl⟩

/-- Witness for claim C6 as amended: on a concrete walk with one matching
file and no directories, the delete collection agrees with selection by base
names. -/
theorem c6_witness :
    specBasenameSelection ".*" (walkFilePairs (walkFS exampleFsCopy ["s"])) = .ok [["s", "a"]]
    ∧ specBasenameSelection ".*" (walkDirPairs (walkFS exampleFsCopy ["s"])) = .ok [] :=
  (c6_amended_basename_except_zip ".*" [] (walkFS exampleFsCopy ["s"])
    [["s", "a"]] []).2.1 rfl

end Build
